import Mathlib

/-!
Verification of the JiraApp core against its specification.

Shallow embedding of the command-protocol parser (`Source/protocol_parser.py`),
the dispatch loop (`Source/orchestrator.py`) and the tool-execution layer
(`Source/mcp_layer.py`).  Python strings are modelled as `List Char`; Python
exceptions as `Except` errors with one constructor per raise site; the mutable
`result` slot of an event as a returned `Option` annotation.
-/

deriving instance DecidableEq for Except

/-- Python strings, modelled as lists of characters. -/
abbrev Chars := List Char

/-- The whitespace set of Python's `str.strip()` (ASCII part, which covers all
inputs exchanged by the protocol). -/
def isPySpace (c : Char) : Bool :=
  c = ' ' || c = '\t' || c = '\n' || c = '\r' || c = '\x0b' || c = '\x0c'

/-- Python `str.strip()`: drop whitespace from both ends. -/
def pyStrip (s : Chars) : Chars :=
  ((s.dropWhile isPySpace).reverse.dropWhile isPySpace).reverse

/-- Python `str.split(sep)` for a one-character separator `sep`
(`"".split(sep) = [""]`, and empty pieces are kept). -/
def splitOnChar (sep : Char) : Chars → List Chars
  | [] => [[]]
  | c :: cs =>
    if c = sep then [] :: splitOnChar sep cs
    else
      match splitOnChar sep cs with
      | [] => [[c]]
      | h :: t => (c :: h) :: t

/-- A word character of the regex class `\w` (ASCII range, which covers the
protocol's command names). -/
def isWordChar (c : Char) : Bool := c.isAlphanum || c = '_'

/-- `re.match` of the pattern `^(\w+)\((.*)\)$` against a single line (the line
contains no newline, so `$` is the end of the string): the match succeeds iff
the line is `w ++ "(" ++ mid ++ ")"` with `w` a non-empty run of word
characters; it returns the two groups `(w, mid)`. -/
def matchCommandPattern (line : Chars) : Option (Chars × Chars) :=
  let w := line.takeWhile isWordChar
  match w, line.dropWhile isWordChar with
  | [], _ => none
  | _, [] => none
  | _, r :: rs =>
    if r = '(' then
      match rs.getLast? with
      | some ')' => some (w, rs.dropLast)
      | _ => none
    else none

/-- `CommandType` enum of `protocol_parser.py`. -/
inductive CommandType
  | QUERY
  | TASK
  | ERROR
deriving DecidableEq

/-- `ParsedEvent` dataclass of `protocol_parser.py` (without the dynamically
added `result` attribute, which the dispatch model returns separately). -/
structure ParsedEvent where
  commandType : CommandType
  toolName : Chars
  toolArgs : List Chars
  rawCommand : Chars
  lineNumber : Nat
deriving DecidableEq

/-- The distinct exceptions that can escape `parse_llm_output`, one constructor
per raise site.  The first five are `FailParser` raises (with their payloads);
`indexError` is the untyped `IndexError` raised by
`command_data.split("(")[1]` when the command data holds no `(`. -/
inductive ParseErr
  | emptyOutput
  | missingBegin
  | missingEnd
  | beginAfterEnd
  | invalidFormat (lineNumber : Nat) (line : Chars)
  | unknownCommandType (name : Chars) (lineNumber : Nat)
  | indexError
deriving DecidableEq

/-- Python `str.upper()` (ASCII). -/
def toUpperChars (s : Chars) : Chars := s.map Char.toUpper

/-- `CommandType(command_name)`: enum lookup by value, `ValueError` ↦ `none`. -/
def commandTypeOfName (n : Chars) : Option CommandType :=
  if n = "QUERY".data then some .QUERY
  else if n = "TASK".data then some .TASK
  else if n = "ERROR".data then some .ERROR
  else none

/-- `ProtocolParser._parse_command_line(line, line_number)`; `line` arrives
already stripped, `lineIdx` is the 0-based index into the (stripped) line
list. -/
def parseCommandLine (line : Chars) (lineIdx : Nat) : Except ParseErr ParsedEvent :=
  match matchCommandPattern line with
  | none => .error (.invalidFormat (lineIdx + 1) line)
  | some (g1, g2) =>
    let commandName := toUpperChars g1
    let commandData := pyStrip g2
    match commandTypeOfName commandName with
    | none => .error (.unknownCommandType commandName (lineIdx + 1))
    | some ct =>
      match splitOnChar '(' commandData with
      | [] => .error .indexError
      | [_] => .error .indexError
      | p0 :: p1 :: _ =>
        let stringArgs := (splitOnChar ')' p1).headD []
        .ok { commandType := ct
              toolName := p0
              toolArgs := splitOnChar ',' stringArgs
              rawCommand := line
              lineNumber := lineIdx + 1 }

/-- The marker-search loop of `parse_llm_output`: scan lines from index `i`
with the most recent `BEGIN` index in `acc`; a line matching `^BEGIN$` (after
stripping) overwrites `acc`, the first line matching `^END$` stops the scan.
Returns `(begin_line, end_line)`. -/
def findMarkersAux : List Chars → Nat → Option Nat → Option Nat × Option Nat
  | [], _, acc => (acc, none)
  | l :: ls, i, acc =>
    let t := pyStrip l
    if t = "BEGIN".data then findMarkersAux ls (i + 1) (some i)
    else if t = "END".data then (acc, some i)
    else findMarkersAux ls (i + 1) acc

/-- The command loop of `parse_llm_output` over the lines strictly between the
markers, first of which has index `i`: blank lines are skipped, every other
line goes through `_parse_command_line`. -/
def parseBetween : List Chars → Nat → Except ParseErr (List ParsedEvent)
  | [], _ => .ok []
  | l :: ls, i =>
    if pyStrip l = [] then parseBetween ls (i + 1)
    else
      match parseCommandLine (pyStrip l) i with
      | .error err => .error err
      | .ok ev =>
        match parseBetween ls (i + 1) with
        | .error err => .error err
        | .ok rest => .ok (ev :: rest)

/-- `ProtocolParser.parse_llm_output`.  Note that the input is stripped as a
whole before being split into lines, so all line indices are relative to the
stripped input. -/
def parse_llm_output (input : Chars) : Except ParseErr (List ParsedEvent) :=
  if pyStrip input = [] then .error .emptyOutput
  else
    let lines := splitOnChar '\n' (pyStrip input)
    match findMarkersAux lines 0 none with
    | (none, _) => .error .missingBegin
    | (some _, none) => .error .missingEnd
    | (some b, some e) =>
      if b ≥ e then .error .beginAfterEnd
      else parseBetween ((lines.drop (b + 1)).take (e - (b + 1))) (b + 1)






/-- A JSON-serializable value as returned by a local tool handler. -/
inductive PyVal
  | vbool (b : Bool)
  | vstr (s : Chars)
deriving DecidableEq

/-- A Python dict with string keys (ordered association list, insertion
order preserved as in CPython). -/
abbrev PyDict (α : Type) := List (Chars × α)

/-- `dict.get(key)` / `dict[key]` lookup. -/
def alookup {α : Type} : PyDict α → Chars → Option α
  | [], _ => none
  | (k, v) :: m, key => if k = key then some v else alookup m key

/-- `dict[key] = value`: replace in place if the key exists (keeping its
position), append otherwise. -/
def dictInsert {α : Type} : PyDict α → Chars → α → PyDict α
  | [], key, v => [(key, v)]
  | (k, w) :: m, key, v =>
    if k = key then (key, v) :: m else (k, w) :: dictInsert m key v

/-- `key in dict`. -/
def hasKey {α : Type} (m : PyDict α) (key : Chars) : Bool := (alookup m key).isSome

/-- `McpTool` descriptor of `mcp_layer.py`: name, description and local
handler.  A handler receives the named-argument dict and returns a
JSON-serializable dict. -/
structure McpTool where
  name : Chars
  description : Chars
  handler : PyDict Chars → PyDict PyVal

/-- The part of a discovered tool's `inputSchema` that `build_schema` reads:
the ordered key list of the `properties` dict and the `required` list.
`none` models an absent key; an absent or empty `properties`/`required`
is falsy in the Python truthiness tests. -/
structure ToolSchema where
  properties : Option (List Chars)
  required : Option (List Chars)
deriving DecidableEq

/-- The distinct exceptions of the execution layer, one constructor per raise
site (`build_schema`'s dict indexing and ValueError, `execute`'s KeyError and
RuntimeError, `_async_call_remote_tool`'s RuntimeErrors, and the
AttributeError raised inside `execute_loop`'s Error branch). -/
inductive ExecErr
  | keyErrorSchema (tool : Chars)
  | valueErrorRequired (arg : Chars)
  | keyErrorUnknownTool (tool : Chars)
  | runtimeErrorNotStarted
  | runtimeErrorNoServerConfig (server : Chars)
  | runtimeErrorMissingSseUrl (server : Chars)
  | attributeError (attr : Chars)
deriving DecidableEq

/-- The binding loop of `build_schema`:
`for index, value in enumerate(list_of_args): mcp_schema[props[index]] = value`
(the caller guards `index` to stay in range of `props`). -/
def bindLoop (props : List Chars) : List Chars → Nat → PyDict Chars → PyDict Chars
  | [], _, acc => acc
  | a :: as, i, acc => bindLoop props as (i + 1) (dictInsert acc (props.getD i []) a)

/-- `McpLayer.build_schema(tool_name, list_of_args)`.  Looks the tool up in
`_remote_tool_schemas` (KeyError when absent).  When the schema's `properties`
are present and non-empty: binds positional arguments onto the property names
in order — but only when no more arguments than properties were supplied —
and then raises a ValueError for the first `required` name missing from the
bound dict.  Otherwise returns the empty dict. -/
def build_schema (schemas : PyDict ToolSchema) (toolName : Chars) (args : List Chars) :
    Except ExecErr (PyDict Chars) :=
  match alookup schemas toolName with
  | none => .error (.keyErrorSchema toolName)
  | some sch =>
    let props := sch.properties.getD []
    if props = [] then .ok []
    else
      let bound := if args.length ≤ props.length then bindLoop props args 0 [] else []
      match (sch.required.getD []).find? (fun a => !hasKey bound a) with
      | some a => .error (.valueErrorRequired a)
      | none => .ok bound

/-- One configured server (`name`, `sse_url`, and the persistency flag derived
from `use_persistent_session`/`persistent_session`/`persistent_sessions`). -/
structure ServerConfig where
  name : Chars
  sseUrl : Chars
  persistent : Bool
deriving DecidableEq

/-- One stored persistent-session bundle (`session` present, `closed` flag);
the transport/session context managers themselves carry no further state the
claims need. -/
structure SessionHandle where
  hasSession : Bool
  closed : Bool
deriving DecidableEq

/-- The observable remote-session actions, in the order the code performs
them.  `submitToLoop` is `execute` handing the coroutine to the background
loop via `_run_coro_sync` (the Scheduler Bridge); the rest happen inside the
coroutine. -/
inductive SessionEvent
  | submitToLoop (server : Chars) (tool : Chars)
  | openTransport (server : Chars)
  | openSession (server : Chars)
  | handshake (server : Chars)
  | callTool (server : Chars) (tool : Chars)
  | closeSession (server : Chars)
  | closeTransport (server : Chars)
deriving DecidableEq

/-- The fields of `McpLayer` the claims exercise. -/
structure McpState where
  nameToTool : PyDict McpTool
  remoteToolToServer : PyDict Chars
  remoteToolSchemas : PyDict ToolSchema
  serverConfigs : List ServerConfig
  serverPersistent : PyDict Bool
  persistentSessions : PyDict SessionHandle
  started : Bool
  loopRunning : Bool

/-- `McpLayer._find_server_config`. -/
def findServerConfig (cfgs : List ServerConfig) (server : Chars) : Option ServerConfig :=
  cfgs.find? (fun s => s.name == server)

/-- The result of `execute`: either the value a local handler returned, or the
content extracted from a remote call's response (opaque here, identified by
server and tool). -/
inductive ExecResult
  | localVal (v : PyDict PyVal)
  | remoteContent (server : Chars) (tool : Chars)
deriving DecidableEq

/-- `McpLayer._async_call_remote_tool(server_name, tool_name, arguments)`:
resolve the server config (RuntimeError when unknown or without `sse_url`),
then open the transport and session, perform the handshake, issue exactly one
tool call, and tear both down again (the `async with` blocks close on every
exit path).  It never reads or writes `_persistent_sessions`. -/
def asyncCallRemoteTool (st : McpState) (server tool : Chars) :
    Except ExecErr ExecResult × List SessionEvent :=
  match findServerConfig st.serverConfigs server with
  | none => (.error (.runtimeErrorNoServerConfig server), [])
  | some cfg =>
    if cfg.sseUrl = [] then (.error (.runtimeErrorMissingSseUrl server), [])
    else
      (.ok (.remoteContent server tool),
       [.openTransport server, .openSession server, .handshake server,
        .callTool server tool, .closeSession server, .closeTransport server])

/-- `McpLayer.execute(tool_name, args)`, instrumented with the session-event
trace and the resulting state: local tools are tried first; then the remote
directory (KeyError when absent); then the started/loop guard (RuntimeError);
only past all three is the coroutine submitted to the background loop. -/
def executeT (st : McpState) (toolName : Chars) (args : PyDict Chars) :
    Except ExecErr ExecResult × List SessionEvent × McpState :=
  match alookup st.nameToTool toolName with
  | some tool => (.ok (.localVal (tool.handler args)), [], st)
  | none =>
    match alookup st.remoteToolToServer toolName with
    | none => (.error (.keyErrorUnknownTool toolName), [], st)
    | some server =>
      if !st.started || !st.loopRunning then (.error .runtimeErrorNotStarted, [], st)
      else
        let (r, evs) := asyncCallRemoteTool st server toolName
        (r, .submitToLoop server toolName :: evs, st)

/-- `McpLayer.execute`, result only. -/
def execute (st : McpState) (toolName : Chars) (args : PyDict Chars) :
    Except ExecErr ExecResult :=
  (executeT st toolName args).1

/-- `McpLayer._ensure_persistent_session(server_name, sse_url)` (body under
the per-server lock): reuse the stored bundle when it exists, has a session
and is not closed; otherwise open transport and session, perform the
handshake, and store a fresh bundle under the server name.  Returns the
session's bundle, the updated `_persistent_sessions`, and the session events
performed. -/
def ensurePersistentSession (sessions : PyDict SessionHandle) (server : Chars) :
    SessionHandle × PyDict SessionHandle × List SessionEvent :=
  match alookup sessions server with
  | some h =>
    if h.hasSession && !h.closed then (h, sessions, [])
    else
      (⟨true, false⟩, dictInsert sessions server ⟨true, false⟩,
       [.openTransport server, .openSession server, .handshake server])
  | none =>
      (⟨true, false⟩, dictInsert sessions server ⟨true, false⟩,
       [.openTransport server, .openSession server, .handshake server])

/-- `Orchestrator.execute_loop(events)`.  Query/Task events go through
`build_schema` and `execute`, and the result is stored on the event (modelled
as the `Option ExecResult` annotation).  The Error branch evaluates
`f"... {event.message}"` first — but `ParsedEvent` defines no `message`
attribute, so an AttributeError is raised and the `break` after the print is
never reached.  Any exception propagates immediately: the annotations already
attached stay, later events remain unprocessed (annotation `none`). -/
def execute_loop (st : McpState) : List ParsedEvent →
    List (ParsedEvent × Option ExecResult) × Option ExecErr
  | [] => ([], none)
  | ev :: rest =>
    match ev.commandType with
    | .TASK | .QUERY =>
      match build_schema st.remoteToolSchemas ev.toolName ev.toolArgs with
      | .error e => ((ev, none) :: rest.map (fun x => (x, none)), some e)
      | .ok schemaArgs =>
        match execute st ev.toolName schemaArgs with
        | .error e => ((ev, none) :: rest.map (fun x => (x, none)), some e)
        | .ok r =>
          let (tl, exc) := execute_loop st rest
          ((ev, some r) :: tl, exc)
    | .ERROR =>
      ((ev, none) :: rest.map (fun x => (x, none)), some (.attributeError "message".data))

/-- The built-in `ping` handler: always returns `{"ok": True, "reply": "pong"}`. -/
def pingHandler (_ : PyDict Chars) : PyDict PyVal :=
  [("ok".data, .vbool true), ("reply".data, .vstr "pong".data)]

/-- The built-in `ping` tool registered by `McpLayer._register_builtin_tools`. -/
def pingTool : McpTool :=
  { name := "ping".data
    description := "Health-check; always returns 'pong'.".data
    handler := pingHandler }

/-- `McpLayer()` right after construction: only the built-in `ping` is
registered, nothing is started. -/
def initialState : McpState :=
  { nameToTool := [("ping".data, pingTool)]
    remoteToolToServer := []
    remoteToolSchemas := []
    serverConfigs := []
    serverPersistent := []
    persistentSessions := []
    started := false
    loopRunning := false }

/-- The layer after a successful `start` with a zero-server configuration. -/
def startedState : McpState :=
  { initialState with started := true, loopRunning := true }

/-- A server marked persistent in its configuration. -/
def srvCfg : ServerConfig := ⟨"srv".data, "http://x".data, true⟩

/-- One persistent server `srv` offering the remote tool `jtool` (schema: one
optional parameter), discovered and started. -/
def persistState : McpState :=
  { nameToTool := [("ping".data, pingTool)]
    remoteToolToServer := [("jtool".data, "srv".data)]
    remoteToolSchemas := [("jtool".data, ⟨some ["issue_key".data], some []⟩)]
    serverConfigs := [srvCfg]
    serverPersistent := [("srv".data, true)]
    persistentSessions := []
    started := true
    loopRunning := true }

/-- The three events parsed from the planner output
`BEGIN\nQUERY(jtool(KEY-1))\nERROR(no_plan())\nQUERY(jtool(KEY-2))\nEND`. -/
def evQ1 : ParsedEvent := ⟨.QUERY, "jtool".data, ["KEY-1".data], "QUERY(jtool(KEY-1))".data, 2⟩

/-- The Error event of that batch. -/
def evErr : ParsedEvent := ⟨.ERROR, "no_plan".data, [[]], "ERROR(no_plan())".data, 3⟩

/-- The event after the Error event in that batch. -/
def evQ2 : ParsedEvent := ⟨.QUERY, "jtool".data, ["KEY-2".data], "QUERY(jtool(KEY-2))".data, 4⟩

/-- Rendering of the spec sentence behind C4: one entry per non-blank line,
in source order, carrying the stripped line and its 1-based line number
(`i` is the 0-based index of the first listed line). -/
def specNonBlankLines : List Chars → Nat → List (Chars × Nat)
  | [], _ => []
  | l :: ls, i =>
    if pyStrip l = [] then specNonBlankLines ls (i + 1)
    else (pyStrip l, i + 1) :: specNonBlankLines ls (i + 1)





/-! ## Claim theorems -/

/-- C1: the spec's ping scenario fails on the code.  Parsing
`BEGIN\nQUERY(ping())\nEND` does yield one Query event for `ping`, but its
`tool_args` is `[""]` (Python's `"".split(",")`), not the empty list; and
dispatching the event through `execute_loop` raises a KeyError inside
`build_schema` — the built-in `ping` has no entry in `_remote_tool_schemas` —
so the built-in is never executed and no result is attached. -/
theorem c1_ping_scenario_eval :
    parse_llm_output "BEGIN\nQUERY(ping())\nEND".data =
      .ok [⟨.QUERY, "ping".data, [[]], "QUERY(ping())".data, 2⟩] ∧
    ([[]] : List Chars) ≠ [] ∧
    execute_loop startedState [⟨.QUERY, "ping".data, [[]], "QUERY(ping())".data, 2⟩] =
      ([(⟨.QUERY, "ping".data, [[]], "QUERY(ping())".data, 2⟩, none)],
       some (.keyErrorSchema "ping".data)) := by
  decide

/-- C2 counterexample: `srv` is marked persistent, yet the first remote call
for its tool `jtool` stores nothing in `_persistent_sessions` (the state comes
back with the map still empty) and runs a full ephemeral session —
open transport, open session, handshake, call, close session, close
transport — because `execute` routes every remote call through
`_async_call_remote_tool`, which never consults the persistent machinery. -/
theorem c2_counterexample :
    alookup persistState.serverPersistent "srv".data = some true ∧
    persistState.persistentSessions = [] ∧
    (executeT persistState "jtool".data []).2.2.persistentSessions = [] ∧
    (executeT persistState "jtool".data []).2.1 =
      [.submitToLoop "srv".data "jtool".data, .openTransport "srv".data,
       .openSession "srv".data, .handshake "srv".data,
       .callTool "srv".data "jtool".data, .closeSession "srv".data,
       .closeTransport "srv".data] := by
  decide

/-- C2 amended: `execute`'s remote path ignores the persistent flag — every
call performs an ephemeral open/handshake/call/teardown and leaves the state
(in particular `_persistent_sessions`) unchanged.  The helper
`_ensure_persistent_session`, which no caller invokes, does behave as the
spec describes: a live stored handle is returned untouched with no session
events, and with no stored handle a fresh session is opened, handshaken and
stored under the server name. -/
theorem c2_amended_ephemeral_path_and_unused_helper
    (st : McpState) (tool server : Chars) (args : PyDict Chars) (cfg : ServerConfig)
    (mlive mfresh : PyDict SessionHandle) (h : SessionHandle)
    (hlocal : alookup st.nameToTool tool = none)
    (hremote : alookup st.remoteToolToServer tool = some server)
    (hstarted : st.started = true) (hloop : st.loopRunning = true)
    (hcfg : findServerConfig st.serverConfigs server = some cfg)
    (hurl : cfg.sseUrl ≠ [])
    (hlive : alookup mlive server = some h)
    (hhas : h.hasSession = true) (hncl : h.closed = false)
    (hnone : alookup mfresh server = none) :
    executeT st tool args =
      (.ok (.remoteContent server tool),
       [.submitToLoop server tool, .openTransport server, .openSession server,
        .handshake server, .callTool server tool, .closeSession server,
        .closeTransport server], st) ∧
    ensurePersistentSession mlive server = (h, mlive, []) ∧
    ensurePersistentSession mfresh server =
      (⟨true, false⟩, dictInsert mfresh server ⟨true, false⟩,
       [.openTransport server, .openSession server, .handshake server]) := by
  refine ⟨?_, ?_, ?_⟩
  · simp [executeT, hlocal, hremote, hstarted, hloop, asyncCallRemoteTool, hcfg, hurl]
  · simp [ensurePersistentSession, hlive, hhas, hncl]
  · simp [ensurePersistentSession, hnone]

/-- Witness for C2 amended, at the concrete persistent server `srv`. -/
theorem c2_amended_witness :
    executeT persistState "jtool".data [] =
      (.ok (.remoteContent "srv".data "jtool".data),
       [.submitToLoop "srv".data "jtool".data, .openTransport "srv".data,
        .openSession "srv".data, .handshake "srv".data,
        .callTool "srv".data "jtool".data, .closeSession "srv".data,
        .closeTransport "srv".data], persistState) ∧
    ensurePersistentSession [("srv".data, ⟨true, false⟩)] "srv".data =
      (⟨true, false⟩, [("srv".data, ⟨true, false⟩)], []) ∧
    ensurePersistentSession [] "srv".data =
      (⟨true, false⟩, dictInsert [] "srv".data ⟨true, false⟩,
       [.openTransport "srv".data, .openSession "srv".data, .handshake "srv".data]) :=
  c2_amended_ephemeral_path_and_unused_helper persistState "jtool".data "srv".data []
    srvCfg [("srv".data, ⟨true, false⟩)] [] ⟨true, false⟩
    rfl (by decide) (by decide) (by decide) (by decide) (by decide)
    (by decide) (by decide) (by decide) (by decide)

/-- C3: the dispatch loop does stop at an `Error` event — nothing after it is
executed and the result already attached to the earlier event is preserved —
but it does not stop cleanly: evaluating `f"... {event.message}"` raises an
AttributeError (`ParsedEvent` defines no `message` field) before the `break`
is reached, so execute_loop terminates by raising. -/
theorem c3_error_event_raises_attribute_error :
    execute_loop persistState [evQ1, evErr, evQ2] =
      ([(evQ1, some (.remoteContent "srv".data "jtool".data)),
        (evErr, none), (evQ2, none)],
       some (.attributeError "message".data)) ∧
    parse_llm_output
        "BEGIN\nQUERY(jtool(KEY-1))\nERROR(no_plan())\nQUERY(jtool(KEY-2))\nEND".data =
      .ok [evQ1, evErr, evQ2] := by
  decide

/-- C5 counterexample: the tool `jget` has a stored schema whose `required`
list names `issue_key` but which has no `properties` key; binding the empty
positional list leaves `issue_key` unbound, yet `build_schema` returns the
empty dict successfully instead of failing with the ValueError naming the
missing parameter — the required check only runs when properties are
present. -/
theorem c5_counterexample :
    build_schema [("jget".data, (⟨none, some ["issue_key".data]⟩ : ToolSchema))]
        "jget".data [] = .ok [] ∧
    build_schema [("jget".data, (⟨none, some ["issue_key".data]⟩ : ToolSchema))]
        "jget".data [] ≠ .error (.valueErrorRequired "issue_key".data) := by
  decide

/-- C6: the failure cases evaluated.  Missing BEGIN, missing END, END before
any BEGIN, an ill-shaped line and an unknown command type all raise the typed
`FailParser` — but a line whose outer shape matches while the inner part has
no parentheses (`QUERY(ping)`) raises an untyped IndexError from
`command_data.split("(")[1]`, not the typed parse failure the spec (and the
function's own docstring) promise; no case returns a partial event list. -/
theorem c6_parse_failure_eval :
    parse_llm_output "QUERY(ping())\nEND".data = .error .missingBegin ∧
    parse_llm_output "BEGIN\nQUERY(ping())".data = .error .missingEnd ∧
    parse_llm_output "END\nBEGIN\nQUERY(ping())\nEND".data = .error .missingBegin ∧
    parse_llm_output "BEGIN\nQUERY ping\nEND".data =
      .error (.invalidFormat 2 "QUERY ping".data) ∧
    parse_llm_output "BEGIN\nFOO(ping())\nEND".data =
      .error (.unknownCommandType "FOO".data 2) ∧
    parse_llm_output "BEGIN\nQUERY(ping)\nEND".data = .error .indexError := by
  decide

/-- C7 counterexample: in `BEGIN\nBEGIN\nQUERY(ping())\nEND` the first line
matching BEGIN has index 0, and the line strictly between the first BEGIN and
the first END at index 1 is `BEGIN`, which does not match the command shape —
so under the claim the parse would fail; the code instead succeeds with one
event (line number 3), because it keeps the last BEGIN seen before the first
END, not the first one. -/
theorem c7_counterexample :
    parse_llm_output "BEGIN\nBEGIN\nQUERY(ping())\nEND".data =
      .ok [⟨.QUERY, "ping".data, [[]], "QUERY(ping())".data, 3⟩] ∧
    (splitOnChar '\n' (pyStrip "BEGIN\nBEGIN\nQUERY(ping())\nEND".data)).getD 0 [] =
      "BEGIN".data ∧
    (splitOnChar '\n' (pyStrip "BEGIN\nBEGIN\nQUERY(ping())\nEND".data)).getD 1 [] =
      "BEGIN".data ∧
    matchCommandPattern "BEGIN".data = none := by
  decide

/-- C8: a name that is neither a local tool nor a discovered remote tool makes
`execute` fail with the unknown-tool KeyError; the session-event trace is
empty — nothing is ever submitted to the background loop (the Scheduler
Bridge) — and the state is untouched. -/
theorem c8_unknown_name_fails_before_bridge (st : McpState) (name : Chars)
    (args : PyDict Chars)
    (h1 : alookup st.nameToTool name = none)
    (h2 : alookup st.remoteToolToServer name = none) :
    executeT st name args = (.error (.keyErrorUnknownTool name), [], st) := by
  simp [executeT, h1, h2]

/-- Witness for C8 at the unregistered name `nope`. -/
theorem c8_witness :
    alookup initialState.nameToTool "nope".data = none ∧
    alookup initialState.remoteToolToServer "nope".data = none ∧
    executeT initialState "nope".data [] =
      (.error (.keyErrorUnknownTool "nope".data), [], initialState) :=
  ⟨rfl, by decide,
   c8_unknown_name_fails_before_bridge initialState "nope".data [] rfl (by decide)⟩

/-- C9: the local-tool branch of `execute` is checked before the started/loop
guard, so a locally registered tool runs its handler and returns its result in
any state — `started` plays no role.  (The witness instantiates this at the
built-in `ping` on the freshly constructed, never-started layer.) -/
theorem c9_local_tool_runs_without_start (st : McpState) (name : Chars)
    (tool : McpTool) (args : PyDict Chars)
    (h : alookup st.nameToTool name = some tool) :
    executeT st name args = (.ok (.localVal (tool.handler args)), [], st) := by
  simp [executeT, h]

/-- Witness for C9: `execute("ping", {})` before `start` returns
`{"ok": True, "reply": "pong"}`. -/
theorem c9_witness :
    initialState.started = false ∧
    alookup initialState.nameToTool "ping".data = some pingTool ∧
    executeT initialState "ping".data [] =
      (.ok (.localVal [("ok".data, .vbool true), ("reply".data, .vstr "pong".data)]),
       [], initialState) :=
  ⟨rfl, rfl, c9_local_tool_runs_without_start initialState "ping".data pingTool [] rfl⟩

/-- C10: when a stored schema's `properties` key is absent or its map is
empty, `build_schema` returns the empty dict and never raises the
missing-required-argument ValueError, whatever the `required` list and the
argument list are. -/
theorem c10_empty_properties_skip_required_check (schemas : PyDict ToolSchema)
    (tool : Chars) (sch : ToolSchema) (args : List Chars)
    (h : alookup schemas tool = some sch) (hp : sch.properties.getD [] = []) :
    build_schema schemas tool args = .ok [] := by
  simp [build_schema, h, hp]

/-- Witness for C10: schema without `properties` but with non-empty
`required`, called with a non-empty argument list. -/
theorem c10_witness :
    alookup [("t".data, (⟨none, some ["x".data]⟩ : ToolSchema))] "t".data =
      some (⟨none, some ["x".data]⟩ : ToolSchema) ∧
    (⟨none, some ["x".data]⟩ : ToolSchema).properties.getD [] = [] ∧
    build_schema [("t".data, (⟨none, some ["x".data]⟩ : ToolSchema))] "t".data
      ["a".data] = .ok [] :=
  ⟨by decide, by decide,
   c10_empty_properties_skip_required_check
     [("t".data, (⟨none, some ["x".data]⟩ : ToolSchema))] "t".data
     (⟨none, some ["x".data]⟩ : ToolSchema) ["a".data] (by decide) (by decide)⟩

/-- C4 counterexample: the input starts with a blank line, so the stripped
input's lines are shifted against the original input's lines.  The single
event is reported with line number 2, but in the original input
`QUERY(ping())` is the third line (0-based index 2 of the original line
list) — line numbers are 1-based in the *stripped* input, not the original. -/
theorem c4_counterexample :
    parse_llm_output "\nBEGIN\nQUERY(ping())\nEND".data =
      .ok [⟨.QUERY, "ping".data, [[]], "QUERY(ping())".data, 2⟩] ∧
    (splitOnChar '\n' "\nBEGIN\nQUERY(ping())\nEND".data).getD 2 [] =
      "QUERY(ping())".data ∧
    (2 : Nat) ≠ 2 + 1 := by
  decide

/-- A successful `_parse_command_line` echoes its inputs: the event's raw
command is the (stripped) line and its line number is the 0-based index plus
one. -/
theorem parseCommandLine_fields (line : Chars) (i : Nat) (ev : ParsedEvent)
    (h : parseCommandLine line i = .ok ev) :
    ev.rawCommand = line ∧ ev.lineNumber = i + 1 := by
  unfold parseCommandLine at h
  split at h
  · exact Except.noConfusion h
  · dsimp only at h
    split at h
    · exact Except.noConfusion h
    · split at h
      · exact Except.noConfusion h
      · exact Except.noConfusion h
      · cases h
        exact ⟨rfl, rfl⟩

/-- The loop over the lines between the markers: on success, the produced
events list one entry per non-blank line, in order, carrying that line
(stripped) and its 1-based index. -/
theorem parseBetween_events (ls : List Chars) : ∀ (i : Nat) (evs : List ParsedEvent),
    parseBetween ls i = .ok evs →
    evs.map (fun ev => (ev.rawCommand, ev.lineNumber)) = specNonBlankLines ls i := by
  induction ls with
  | nil =>
    intro i evs h
    cases h
    rfl
  | cons l ls ih =>
    intro i evs h
    unfold parseBetween at h
    unfold specNonBlankLines
    by_cases hb : pyStrip l = []
    · rw [if_pos hb] at h
      rw [if_pos hb]
      exact ih (i + 1) evs h
    · rw [if_neg hb] at h
      rw [if_neg hb]
      cases hc : parseCommandLine (pyStrip l) i with
      | error err => rw [hc] at h; exact Except.noConfusion h
      | ok ev =>
        rw [hc] at h
        cases hr : parseBetween ls (i + 1) with
        | error err => rw [hr] at h; exact Except.noConfusion h
        | ok rest =>
          rw [hr] at h
          cases h
          obtain ⟨hraw, hnum⟩ := parseCommandLine_fields _ _ _ hc
          simp only [List.map_cons, hraw, hnum, ih (i + 1) rest hr]

/-- The loop over the lines between the markers succeeds when every line is
blank or individually well-formed. -/
theorem parseBetween_ok (ls : List Chars) : ∀ i : Nat,
    (∀ j, j < ls.length → pyStrip (ls.getD j []) = [] ∨
        (parseCommandLine (pyStrip (ls.getD j [])) (i + j)).toOption.isSome = true) →
    ∃ evs, parseBetween ls i = .ok evs := by
  induction ls with
  | nil => exact fun i _ => ⟨[], rfl⟩
  | cons l ls ih =>
    intro i hwf
    have htail : ∀ j, j < ls.length → pyStrip (ls.getD j []) = [] ∨
        (parseCommandLine (pyStrip (ls.getD j [])) (i + 1 + j)).toOption.isSome = true := by
      intro j hj
      have := hwf (j + 1) (by simpa using Nat.succ_lt_succ hj)
      simpa [Nat.add_assoc, Nat.add_comm 1 j] using this
    obtain ⟨rest, hrest⟩ := ih (i + 1) htail
    unfold parseBetween
    by_cases hb : pyStrip l = []
    · rw [if_pos hb]
      exact ⟨rest, hrest⟩
    · rw [if_neg hb]
      have h0 := hwf 0 (Nat.succ_pos _)
      rcases h0 with h0 | h0
      · exact absurd h0 (by simpa using hb)
      · cases hc : parseCommandLine (pyStrip l) i with
        | error err =>
          rw [show pyStrip ((l :: ls).getD 0 []) = pyStrip l from rfl, Nat.add_zero, hc] at h0
          exact absurd h0 (by simp [Except.toOption])
        | ok ev =>
          rw [hrest]
          exact ⟨ev :: rest, rfl⟩

/-- C4 amended: for an input whose markers are found at `b < e` and whose
lines strictly between them are each blank or well-formed, the parse succeeds
with exactly one event per non-blank line of that segment, in source order,
each carrying the stripped line and its 1-based line number — 1-based in the
*whitespace-stripped* input (which coincides with the original input whenever
the input has no leading blank line). -/
theorem c4_amended (input : Chars) (lines seg : List Chars) (b e : Nat)
    (hne : pyStrip input ≠ [])
    (hlines : lines = splitOnChar '\n' (pyStrip input))
    (hm : findMarkersAux lines 0 none = (some b, some e))
    (hbe : b < e)
    (hseg : seg = (lines.drop (b + 1)).take (e - (b + 1)))
    (hwf : ∀ j, j < seg.length → pyStrip (seg.getD j []) = [] ∨
        (parseCommandLine (pyStrip (seg.getD j [])) (b + 1 + j)).toOption.isSome = true) :
    ∃ evs, parse_llm_output input = .ok evs ∧
      evs.map (fun ev => (ev.rawCommand, ev.lineNumber)) = specNonBlankLines seg (b + 1) := by
  have hrun : parse_llm_output input = parseBetween seg (b + 1) := by
    rw [hlines] at hm
    rw [hseg, hlines]
    unfold parse_llm_output
    rw [if_neg hne]
    dsimp only
    rw [hm]
    dsimp only
    rw [if_neg (by omega : ¬ b ≥ e)]
  obtain ⟨evs, hok⟩ := parseBetween_ok seg (b + 1) hwf
  exact ⟨evs, by rw [hrun, hok], parseBetween_events seg (b + 1) evs hok⟩

/-- Witness for C4 amended, at a block with two commands and a blank line. -/
theorem c4_amended_witness :
    ∃ evs,
      parse_llm_output "BEGIN\nQUERY(ping())\n\nTASK(t2(a,b))\nEND".data = .ok evs ∧
      evs.map (fun ev => (ev.rawCommand, ev.lineNumber)) =
        specNonBlankLines
          (((splitOnChar '\n'
              (pyStrip "BEGIN\nQUERY(ping())\n\nTASK(t2(a,b))\nEND".data)).drop 1).take 3) 1 :=
  c4_amended "BEGIN\nQUERY(ping())\n\nTASK(t2(a,b))\nEND".data
    (splitOnChar '\n' (pyStrip "BEGIN\nQUERY(ping())\n\nTASK(t2(a,b))\nEND".data))
    (((splitOnChar '\n'
        (pyStrip "BEGIN\nQUERY(ping())\n\nTASK(t2(a,b))\nEND".data)).drop 1).take 3)
    0 4 (by decide) rfl (by decide) (by decide) rfl (by decide)

/-- Inserting a key not yet present appends the pair at the end (Python dict
insertion order). -/
theorem dictInsert_fresh {α : Type} (m : PyDict α) (k : Chars) (v : α)
    (h : alookup m k = none) : dictInsert m k v = m ++ [(k, v)] := by
  induction m with
  | nil => rfl
  | cons p m ih =>
    obtain ⟨k', w⟩ := p
    simp only [alookup] at h
    by_cases hk : k' = k
    · rw [if_pos hk] at h
      exact Option.noConfusion h
    · rw [if_neg hk] at h
      simp [dictInsert, hk, ih h]

/-- Lookup after appending a single pair. -/
theorem alookup_append_single {α : Type} (m : PyDict α) (k q : Chars) (v : α) :
    alookup (m ++ [(k, v)]) q =
      match alookup m q with
      | some w => some w
      | none => if k = q then some v else none := by
  induction m with
  | nil => rfl
  | cons p m ih =>
    obtain ⟨k', w⟩ := p
    by_cases h : k' = q <;> simp [alookup, h, ih]

/-- A `False`-valued `in`-test means the lookup found nothing. -/
theorem hasKey_false_alookup {α : Type} (m : PyDict α) (k : Chars)
    (h : hasKey m k = false) : alookup m k = none := by
  unfold hasKey at h
  cases hl : alookup m k with
  | none => rfl
  | some w => rw [hl] at h; exact Bool.noConfusion h

/-- The enumerate-and-assign loop of `build_schema` builds exactly the zip of
the first `args.length` property names with the arguments, in order (the
property names being distinct dict keys). -/
theorem bindLoop_eq_zip (props : List Chars) :
    ∀ (args : List Chars) (i : Nat) (acc : PyDict Chars),
      i + args.length ≤ props.length →
      ((props.drop i).take args.length).Nodup →
      (∀ p, p ∈ (props.drop i).take args.length → hasKey acc p = false) →
      bindLoop props args i acc = acc ++ ((props.drop i).take args.length).zip args := by
  intro args
  induction args with
  | nil =>
    intro i acc _ _ _
    simp [bindLoop]
  | cons a as ih =>
    intro i acc hlen hnd hdis
    simp only [List.length_cons] at hlen
    have hi : i < props.length := by omega
    have hdrop : props.drop i = props.getD i [] :: props.drop (i + 1) := by
      rw [List.getD_eq_getElem _ _ hi]
      exact List.drop_eq_getElem_cons hi
    rw [hdrop] at hnd hdis ⊢
    simp only [List.length_cons, List.take_succ_cons] at hnd hdis ⊢
    have hfresh : alookup acc (props.getD i []) = none :=
      hasKey_false_alookup _ _ (hdis (props.getD i []) (List.mem_cons_self _ _))
    have hnotmem : props.getD i [] ∉ (props.drop (i + 1)).take as.length :=
      (List.nodup_cons.mp hnd).1
    have hdis' : ∀ p, p ∈ (props.drop (i + 1)).take as.length →
        hasKey (acc ++ [(props.getD i [], a)]) p = false := by
      intro p hp
      have hplook : alookup acc p = none :=
        hasKey_false_alookup _ _ (hdis p (List.mem_cons_of_mem _ hp))
      have hpk : props.getD i [] ≠ p := fun hEq => hnotmem (hEq ▸ hp)
      show (alookup (acc ++ [(props.getD i [], a)]) p).isSome = false
      rw [alookup_append_single, hplook, if_neg hpk]
      rfl
    have hstep : bindLoop props (a :: as) i acc =
        bindLoop props as (i + 1) (acc ++ [(props.getD i [], a)]) := by
      rw [show bindLoop props (a :: as) i acc =
            bindLoop props as (i + 1) (dictInsert acc (props.getD i []) a) from rfl,
          dictInsert_fresh acc _ a hfresh]
    rw [hstep, ih (i + 1) (acc ++ [(props.getD i [], a)]) (by omega)
          (List.nodup_cons.mp hnd).2 hdis']
    simp [List.zip_cons_cons, List.append_assoc]

/-- C5 amended: for a tool with a stored schema that declares a non-empty
`properties` map, when at most as many positional arguments as declared
parameters are supplied, binding assigns `positionalArgs[i]` to the i-th
declared parameter name for each supplied position (missing trailing
parameters are simply absent), and afterwards it fails with the ValueError
naming the first name of the `required` list absent from the result, if any.
(When the schema has no properties the required check is skipped — see C10 —
and when more arguments than parameters are supplied nothing is bound.) -/
theorem c5_amended (schemas : PyDict ToolSchema) (tool : Chars) (sch : ToolSchema)
    (props args : List Chars)
    (h : alookup schemas tool = some sch)
    (hp : sch.properties = some props) (hne : props ≠ []) (hnd : props.Nodup)
    (hlen : args.length ≤ props.length) :
    build_schema schemas tool args =
      match (sch.required.getD []).find?
          (fun a => !hasKey ((props.take args.length).zip args) a) with
      | some a => .error (.valueErrorRequired a)
      | none => .ok ((props.take args.length).zip args) := by
  have hbind : bindLoop props args 0 [] = (props.take args.length).zip args := by
    have h0 := bindLoop_eq_zip props args 0 []
      (by simpa using hlen)
      (by simpa using List.Nodup.sublist (List.take_sublist _ _) hnd)
      (fun p _ => rfl)
    simpa using h0
  unfold build_schema
  rw [h]
  dsimp only
  rw [hp]
  dsimp only [Option.getD_some]
  rw [if_neg hne]
  rw [if_pos hlen, hbind]

/-- Witness for C5 amended: two declared parameters `a`, `b`, both required,
one supplied argument — binding maps `a` and the required check fails naming
`b`. -/
theorem c5_amended_witness :
    build_schema
        [("t2".data, (⟨some ["a".data, "b".data], some ["a".data, "b".data]⟩ : ToolSchema))]
        "t2".data ["x".data] =
      (match (["a".data, "b".data].find?
          (fun a => !hasKey ((["a".data, "b".data].take 1).zip ["x".data]) a)) with
      | some a => .error (.valueErrorRequired a)
      | none => .ok ((["a".data, "b".data].take 1).zip ["x".data])) ∧
    build_schema
        [("t2".data, (⟨some ["a".data, "b".data], some ["a".data, "b".data]⟩ : ToolSchema))]
        "t2".data ["x".data] = .error (.valueErrorRequired "b".data) :=
  ⟨c5_amended
     [("t2".data, (⟨some ["a".data, "b".data], some ["a".data, "b".data]⟩ : ToolSchema))]
     "t2".data (⟨some ["a".data, "b".data], some ["a".data, "b".data]⟩ : ToolSchema)
     ["a".data, "b".data] ["x".data] rfl rfl (by decide) (by decide) (by decide),
   by decide⟩

/-- Characterization of the marker-search loop: when it returns
`(some b, some e)` starting at index `i` with accumulator `acc`, then `e` is
`i` plus the offset `k` of the first END line, no earlier line is an END line,
and `b` is either `i` plus the offset of the last BEGIN line before that END
line, or the accumulator when the scanned lines hold no BEGIN at all. -/
theorem findMarkersAux_spec (ls : List Chars) : ∀ (i : Nat) (acc : Option Nat) (b e : Nat),
    findMarkersAux ls i acc = (some b, some e) →
    ∃ k, k < ls.length ∧ e = i + k ∧
      pyStrip (ls.getD k []) = "END".data ∧
      (∀ m, m < k → pyStrip (ls.getD m []) ≠ "END".data) ∧
      ((∃ m, m < k ∧ b = i + m ∧ pyStrip (ls.getD m []) = "BEGIN".data ∧
          ∀ n, m < n → n < k → pyStrip (ls.getD n []) ≠ "BEGIN".data)
       ∨ (acc = some b ∧ ∀ m, m < k → pyStrip (ls.getD m []) ≠ "BEGIN".data)) := by
  induction ls with
  | nil =>
    intro i acc b e h
    exact absurd h (by simp [findMarkersAux])
  | cons l ls ih =>
    intro i acc b e h
    unfold findMarkersAux at h
    dsimp only at h
    by_cases hB : pyStrip l = "BEGIN".data
    · rw [if_pos hB] at h
      obtain ⟨k, hk, he, hend, hnoend, hbeg⟩ := ih (i + 1) (some i) b e h
      refine ⟨k + 1, by simpa using Nat.succ_lt_succ hk, by omega, hend, ?_, ?_⟩
      · intro m hm
        match m with
        | 0 =>
          show pyStrip l ≠ "END".data
          rw [hB]
          decide
        | n + 1 => exact hnoend n (by omega)
      · rcases hbeg with ⟨m, hmk, hbm, hBm, hafter⟩ | ⟨hacc, hnob⟩
        · refine Or.inl ⟨m + 1, by omega, by omega, hBm, ?_⟩
          intro n hn1 hn2
          match n with
          | 0 => omega
          | n' + 1 => exact hafter n' (by omega) (by omega)
        · have hbi : b = i := (Option.some.inj hacc).symm
          refine Or.inl ⟨0, by omega, by omega, hB, ?_⟩
          intro n hn1 hn2
          match n with
          | 0 => omega
          | n' + 1 => exact hnob n' (by omega)
    · rw [if_neg hB] at h
      by_cases hE : pyStrip l = "END".data
      · rw [if_pos hE] at h
        have h1 : acc = some b := congrArg Prod.fst h
        have h2 : i = e := Option.some.inj (congrArg Prod.snd h)
        refine ⟨0, by simp, by omega, hE, ?_, Or.inr ⟨h1, ?_⟩⟩
        · intro m hm
          omega
        · intro m hm
          omega
      · rw [if_neg hE] at h
        obtain ⟨k, hk, he, hend, hnoend, hbeg⟩ := ih (i + 1) acc b e h
        refine ⟨k + 1, by simpa using Nat.succ_lt_succ hk, by omega, hend, ?_, ?_⟩
        · intro m hm
          match m with
          | 0 => exact hE
          | n + 1 => exact hnoend n (by omega)
        · rcases hbeg with ⟨m, hmk, hbm, hBm, hafter⟩ | ⟨hacc, hnob⟩
          · refine Or.inl ⟨m + 1, by omega, by omega, hBm, ?_⟩
            intro n hn1 hn2
            match n with
            | 0 => omega
            | n' + 1 => exact hafter n' (by omega) (by omega)
          · refine Or.inr ⟨hacc, ?_⟩
            intro m hm
            match m with
            | 0 => exact hB
            | n + 1 => exact hnob n (by omega)

/-- C7 amended: the parser stops at the *first* line matching END (matched
case-sensitively after trimming), takes as BEGIN the *last* line matching
BEGIN before that first END (requiring one to exist, strictly before it), and
parses exactly the lines of the whitespace-stripped input strictly between
those two markers. -/
theorem c7_amended (input : Chars) (lines : List Chars) (b e : Nat)
    (hne : pyStrip input ≠ [])
    (hlines : lines = splitOnChar '\n' (pyStrip input))
    (hm : findMarkersAux lines 0 none = (some b, some e)) :
    b < e ∧ e < lines.length ∧
    pyStrip (lines.getD e []) = "END".data ∧
    (∀ j, j < e → pyStrip (lines.getD j []) ≠ "END".data) ∧
    pyStrip (lines.getD b []) = "BEGIN".data ∧
    (∀ j, b < j → j < e → pyStrip (lines.getD j []) ≠ "BEGIN".data) ∧
    parse_llm_output input =
      parseBetween ((lines.drop (b + 1)).take (e - (b + 1))) (b + 1) := by
  obtain ⟨k, hk, he, hend, hnoend, hbeg⟩ := findMarkersAux_spec lines 0 none b e hm
  rcases hbeg with ⟨m, hmk, hbm, hBm, hafter⟩ | ⟨hacc, _⟩
  · have hek : e = k := by omega
    have hbmm : b = m := by omega
    have hblt : b < e := by omega
    refine ⟨hblt, by omega, by rw [hek]; exact hend, ?_, by rw [hbmm]; exact hBm, ?_, ?_⟩
    · intro j hj
      exact hnoend j (by omega)
    · intro j h1 h2
      have := hafter j (by omega) (by omega)
      exact this
    · rw [hlines] at hm
      rw [hlines]
      unfold parse_llm_output
      rw [if_neg hne]
      dsimp only
      rw [hm]
      dsimp only
      rw [if_neg (by omega : ¬ b ≥ e)]
  · exact absurd hacc (by simp)

/-- Witness for C7 amended: in `BEGIN\nBEGIN\nQUERY(ping())\nEND` the markers
found are the second BEGIN (index 1) and the END (index 3). -/
theorem c7_amended_witness :
    (1 : Nat) < 3 ∧
    pyStrip ((splitOnChar '\n'
        (pyStrip "BEGIN\nBEGIN\nQUERY(ping())\nEND".data)).getD 3 []) = "END".data ∧
    pyStrip ((splitOnChar '\n'
        (pyStrip "BEGIN\nBEGIN\nQUERY(ping())\nEND".data)).getD 1 []) = "BEGIN".data ∧
    parse_llm_output "BEGIN\nBEGIN\nQUERY(ping())\nEND".data =
      parseBetween
        (((splitOnChar '\n'
            (pyStrip "BEGIN\nBEGIN\nQUERY(ping())\nEND".data)).drop 2).take 1) 2 := by
  obtain ⟨h1, h2, h3, h4, h5, h6, h7⟩ :=
    c7_amended "BEGIN\nBEGIN\nQUERY(ping())\nEND".data
      (splitOnChar '\n' (pyStrip "BEGIN\nBEGIN\nQUERY(ping())\nEND".data)) 1 3
      (by decide) rfl (by decide)
  exact ⟨h1, h3, h5, h7⟩
